import Mathlib

/-!
# hclient: HTTP authentication strategies

A shallow embedding of `auth.go` and `hclient.go`.

* Go strings are Lean strings; `[]byte(s)` is the UTF-8 encoding `bytes s`.
* Bytes and machine words are natural numbers reduced modulo the word size;
  the `int16` field `Nc` is an `Int` wrapped into `[-32768, 32767]` after every
  arithmetic step.
* Pointers that are mutated in place (`*DigestAuth`, `*http.Request`) become
  explicit state passing: a method returns the new receiver and the new request.
* A Go `(value, error)` result is an `Except`; a call that may panic returns
  an `Outcome`.
* `crypto/rand` is an explicit entropy source threaded through the constructors.
-/

namespace hclient

/-- How a call ends: it returns its results, or it panics. -/
inductive Outcome (α : Type) where
  | returned (v : α)
  | panicked (msg : String)

/-! ## Standard-library primitives used by the source -/

/-- UTF-8 encoding of one code point, as Go stores it in a string. -/
def utf8 (c : Nat) : List Nat :=
  if c < 0x80 then [c]
  else if c < 0x800 then [0xC0 + c / 64, 0x80 + c % 64]
  else if c < 0x10000 then [0xE0 + c / 4096, 0x80 + c / 64 % 64, 0x80 + c % 64]
  else [0xF0 + c / 262144, 0x80 + c / 4096 % 64, 0x80 + c / 64 % 64, 0x80 + c % 64]

/-- Go conversion `[]byte(s)`. -/
def bytes (s : String) : List Nat := s.toList.flatMap fun c => utf8 c.toNat

namespace md5

/-- Initial chaining value of MD5. -/
def initState : Nat × Nat × Nat × Nat := (0x67452301, 0xefcdab89, 0x98badcfe, 0x10325476)

/-- Additive constants of the 64 MD5 steps. -/
def table : List Nat := [
  0xd76aa478, 0xe8c7b756, 0x242070db, 0xc1bdceee,
  0xf57c0faf, 0x4787c62a, 0xa8304613, 0xfd469501,
  0x698098d8, 0x8b44f7af, 0xffff5bb1, 0x895cd7be,
  0x6b901122, 0xfd987193, 0xa679438e, 0x49b40821,
  0xf61e2562, 0xc040b340, 0x265e5a51, 0xe9b6c7aa,
  0xd62f105d, 0x02441453, 0xd8a1e681, 0xe7d3fbc8,
  0x21e1cde6, 0xc33707d6, 0xf4d50d87, 0x455a14ed,
  0xa9e3e905, 0xfcefa3f8, 0x676f02d9, 0x8d2a4c8a,
  0xfffa3942, 0x8771f681, 0x6d9d6122, 0xfde5380c,
  0xa4beea44, 0x4bdecfa9, 0xf6bb4b60, 0xbebfbc70,
  0x289b7ec6, 0xeaa127fa, 0xd4ef3085, 0x04881d05,
  0xd9d4d039, 0xe6db99e5, 0x1fa27cf8, 0xc4ac5665,
  0xf4292244, 0x432aff97, 0xab9423a7, 0xfc93a039,
  0x655b59c3, 0x8f0ccc92, 0xffeff47d, 0x85845dd1,
  0x6fa87e4f, 0xfe2ce6e0, 0xa3014314, 0x4e0811a1,
  0xf7537e82, 0xbd3af235, 0x2ad7d2bb, 0xeb86d391]

/-- Rotation amounts of the 64 MD5 steps. -/
def shifts : List Nat := [
  7, 12, 17, 22, 7, 12, 17, 22, 7, 12, 17, 22, 7, 12, 17, 22,
  5, 9, 14, 20, 5, 9, 14, 20, 5, 9, 14, 20, 5, 9, 14, 20,
  4, 11, 16, 23, 4, 11, 16, 23, 4, 11, 16, 23, 4, 11, 16, 23,
  6, 10, 15, 21, 6, 10, 15, 21, 6, 10, 15, 21, 6, 10, 15, 21]

/-- Bitwise complement of a 32-bit word. -/
def not32 (x : Nat) : Nat := x ^^^ 0xffffffff

/-- Left rotation of a 32-bit word. -/
def rotl32 (x s : Nat) : Nat := ((x <<< s) ||| (x >>> (32 - s))) % 2 ^ 32

/-- Little-endian 32-bit word of four bytes. -/
def word (b0 b1 b2 b3 : Nat) : Nat := b0 + b1 * 2 ^ 8 + b2 * 2 ^ 16 + b3 * 2 ^ 24

/-- The little-endian words of a block. -/
def words : List Nat → List Nat
  | b0 :: b1 :: b2 :: b3 :: rest => word b0 b1 b2 b3 :: words rest
  | _ => []

/-- One of the 64 steps of the MD5 compression function on message words `m`. -/
def step (m : List Nat) (st : Nat × Nat × Nat × Nat) (i : Nat) : Nat × Nat × Nat × Nat :=
  let (a, b, c, d) := st
  let fg : Nat × Nat :=
    if i < 16 then ((b &&& c) ||| (not32 b &&& d), i)
    else if i < 32 then ((d &&& b) ||| (not32 d &&& c), (5 * i + 1) % 16)
    else if i < 48 then (b ^^^ c ^^^ d, (3 * i + 5) % 16)
    else (c ^^^ (b ||| not32 d), (7 * i) % 16)
  let f := (fg.1 + a + table.getD i 0 + m.getD fg.2 0) % 2 ^ 32
  (d, (b + rotl32 f (shifts.getD i 0)) % 2 ^ 32, b, c)

/-- MD5 compression of one 64-byte block. -/
def block (st : Nat × Nat × Nat × Nat) (chunk : List Nat) : Nat × Nat × Nat × Nat :=
  let (a, b, c, d) := (List.range 64).foldl (step (words chunk)) st
  ((st.1 + a) % 2 ^ 32, (st.2.1 + b) % 2 ^ 32, (st.2.2.1 + c) % 2 ^ 32, (st.2.2.2 + d) % 2 ^ 32)

/-- The `k` low bytes of `x`, least significant first. -/
def leBytes : Nat → Nat → List Nat
  | 0, _ => []
  | k + 1, x => x % 256 :: leBytes k (x / 256)

/-- MD5 padding: a 0x80 byte, zeros up to 56 modulo 64, the bit length on 8 bytes. -/
def pad (msg : List Nat) : List Nat :=
  msg ++ 0x80 :: List.replicate ((119 - msg.length % 64) % 64) 0
    ++ leBytes 8 ((8 * msg.length) % 2 ^ 64)

/-- Compression of `n` consecutive blocks. -/
def blocks : Nat → Nat × Nat × Nat × Nat → List Nat → Nat × Nat × Nat × Nat
  | 0, st, _ => st
  | n + 1, st, bs => blocks n (block st (bs.take 64)) (bs.drop 64)

/-- Go `md5.Sum`: the 16-byte MD5 digest of `data`. -/
def Sum (data : List Nat) : List Nat :=
  let p := pad data
  let (a, b, c, d) := blocks (p.length / 64) initState p
  leBytes 4 a ++ leBytes 4 b ++ leBytes 4 c ++ leBytes 4 d

end md5

/-- Digit table of package `fmt` for lowercase bases. -/
def ldigits : String := "0123456789abcdefx"

/-- The digit `ldigits[n]`. -/
def hexDigit (n : Nat) : Char := ldigits.toList.getD n '0'

/-- Go `fmt.Sprintf("%x", b)` for a byte array: two lowercase hex digits per byte. -/
def Sprintfx (bs : List Nat) : String :=
  String.mk (bs.flatMap fun b => [hexDigit (b / 16), hexDigit (b % 16)])

/-- The digit loop of `fmt.fmtInteger` in base 16: digits are written into the
buffer from the right while `u >= 16`, then the leading digit. The fuel is the
number of loop turns allowed; 16 turns exhaust any `uint64`. -/
def fmtDigits : Nat → Nat → List Char → List Char
  | 0, u, buf => hexDigit u :: buf
  | fuel + 1, u, buf =>
    if 16 ≤ u then fmtDigits fuel (u / 16) (hexDigit (u % 16) :: buf)
    else hexDigit u :: buf

/-- Go `fmt.Sprintf("%08x", v)` for a signed integer `v`: the magnitude in
lowercase hex, zero-padded to the width 8 less one place for a sign, the sign
`-` in front of a negative value. -/
def Sprintf08x (v : Int) : String :=
  let negative := decide (v < 0)
  let prec := if negative then 8 - 1 else 8
  let ds := fmtDigits 16 v.natAbs []
  let padded := List.replicate (prec - ds.length) '0' ++ ds
  String.mk (if negative then '-' :: padded else padded)

/-- Conversion of an integer to `int16` (two's complement wrap-around). -/
def wrapInt16 (x : Int) : Int := (x + 32768) % 65536 - 32768

/-- Bytes that may appear in an HTTP token (`httpguts.IsTokenRune`,
`textproto.validHeaderFieldByte`). -/
def isTokenChar (c : Char) : Bool :=
  c.isAlphanum || "!#$%&'*+-.^_`|~".toList.contains c

namespace textproto

/-- The canonicalisation loop: the first letter and every letter after a
hyphen in upper case, every other letter in lower case. -/
def canon : Bool → List Char → List Char
  | _, [] => []
  | upper, c :: cs =>
    let c1 := if upper then c.toUpper else c.toLower
    c1 :: canon (c1 == '-') cs

/-- Go `textproto.CanonicalMIMEHeaderKey`: a key holding a byte that is not a
token byte is returned unchanged. -/
def CanonicalMIMEHeaderKey (s : String) : String :=
  if s.toList.all isTokenChar then String.mk (canon true s.toList) else s

end textproto

namespace url

/-- The fields of `url.URL` that `RequestURI` reads; `EscapedPath` stands for
the result of the method of that name. -/
structure URL where
  Scheme : String
  Opaque : String
  Host : String
  EscapedPath : String
  ForceQuery : Bool
  RawQuery : String
deriving DecidableEq, Repr

/-- Go `(*URL).RequestURI`: the encoded `path?query` or `opaque?query` string
sent in the request line. -/
def URL.RequestURI (u : URL) : String :=
  let result :=
    if u.Opaque = "" then
      (if u.EscapedPath = "" then "/" else u.EscapedPath)
    else if u.Opaque.startsWith "//" then u.Scheme ++ ":" ++ u.Opaque
    else u.Opaque
  if u.ForceQuery || u.RawQuery ≠ "" then result ++ "?" ++ u.RawQuery else result

end url

namespace http

/-- Go `http.Header`, a map from header key to its list of values. -/
abbrev Header := String → Option (List String)

/-- The empty header map of `make(Header)`. -/
def Header.empty : Header := fun _ => none

/-- Go `Header.Set`: the values of the canonical form of `key` are replaced by
the single value `value`. -/
def Header.Set (h : Header) (key value : String) : Header :=
  fun k => if k = textproto.CanonicalMIMEHeaderKey key then some [value] else h k

/-- Go `Header.Values`: the values stored under the canonical form of `key`. -/
def Header.Values (h : Header) (key : String) : List String :=
  (h (textproto.CanonicalMIMEHeaderKey key)).getD []

/-- The parts of `http.Request` the package reads or writes. The header map is
never nil, as in every request built by `http.NewRequest`. -/
structure Request where
  Method : String
  URL : url.URL
  Header : Header
  Body : Option String

/-- The parts of `http.Response` the package reads. -/
structure Response where
  StatusCode : Int
  Body : String

end http

/-! ## auth.go -/

/-- DigestAuth consists of required information for HTTP Digest Auth. -/
structure DigestAuth where
  Realm : String
  Qop : String
  Method : String
  Nonce : String
  Opaque : String
  Algorithm : String
  HA1 : String
  Cnonce : String
  Path : String
  Nc : Int
  Username : String
  Password : String
deriving DecidableEq, Repr

/-- Apply adds the Digest Authorization header to a HTTP request: the counter
is incremented (as an `int16`), then the header is computed and set. -/
def DigestAuth.Apply (d : DigestAuth) (req : http.Request) : DigestAuth × http.Request :=
  let d := { d with Nc := wrapInt16 (d.Nc + 1) }
  let HA2 := Sprintfx (md5.Sum (bytes (req.Method ++ ":" ++ req.URL.RequestURI)))
  let response := Sprintfx (md5.Sum (bytes (d.HA1 ++ ":" ++ d.Nonce ++ ":" ++ Sprintf08x d.Nc
    ++ ":" ++ d.Cnonce ++ ":" ++ d.Qop ++ ":" ++ HA2)))
  let authHeader := "Digest username=\"" ++ d.Username ++ "\", realm=\"" ++ d.Realm
    ++ "\", nonce=\"" ++ d.Nonce ++ "\", uri=\"" ++ req.URL.RequestURI
    ++ "\", cnonce=\"" ++ d.Cnonce ++ "\", nc=" ++ Sprintf08x d.Nc ++ ", qop=" ++ d.Qop
    ++ ", response=\"" ++ response ++ "\", opaque=\"" ++ d.Opaque ++ "\""
  (d, { req with Header := req.Header.Set "Authorization" authHeader })

namespace rand

/-- The entropy source of `crypto/rand`: the numbers it can still deliver,
each read as a byte (modulo 256). -/
abbrev Source := List Nat

/-- Go `rand.Read` on a buffer of `n` bytes: the buffer is filled entirely, or
the read fails (here: when the source is exhausted). -/
def Read (src : Source) (n : Nat) : Except String (List Nat × Source) :=
  if n ≤ src.length then .ok ((src.take n).map (· % 256), src.drop n)
  else .error "crypto/rand: read failed"

end rand

/-- The alphabet of `RandomString`. -/
def DICT : String := "1234567890abcdefghijklmnopqrstuvwxyzABCDEFGHIJKLMNOPQRSTUVWXYZ"

/-- The modulus of `RandomString`. -/
def SIZE : Nat := 62

/-- The indexing `DICT[i]`, a run-time panic when `i` is out of range. -/
def dictAt (i : Nat) : Outcome Char :=
  match DICT.toList[i]? with
  | some c => .returned c
  | none => .panicked "index out of range"

/-- The loop `for i := range randBytes { randBytes[i] = DICT[randBytes[i]%SIZE] }`. -/
def mapDict : List Nat → Outcome (List Char)
  | [] => .returned []
  | b :: bs =>
    match dictAt (b % SIZE) with
    | .panicked msg => .panicked msg
    | .returned c =>
      match mapDict bs with
      | .panicked msg => .panicked msg
      | .returned cs => .returned (c :: cs)

/-- RandomString returns a random string of the given length: `length` bytes
are read from the entropy source (a failed read panics) and each byte `b` is
replaced by `DICT[b % SIZE]`. -/
def RandomString (length : Nat) (src : rand.Source) : Outcome (String × rand.Source) :=
  match rand.Read src length with
  | .error err => .panicked err
  | .ok (randBytes, src1) =>
    match mapDict randBytes with
    | .panicked msg => .panicked msg
    | .returned cs => .returned (String.mk cs, src1)

/-- NewDigestAuth creates a new DigestAuth object. -/
def NewDigestAuth (realm username password : String) (src : rand.Source) :
    Outcome (DigestAuth × rand.Source) :=
  match RandomString 32 src with
  | .panicked msg => .panicked msg
  | .returned (nonce, src1) =>
    match RandomString 32 src1 with
    | .panicked msg => .panicked msg
    | .returned (opq, src2) =>
      let ha1 := Sprintfx (md5.Sum (bytes (username ++ ":" ++ realm ++ ":" ++ password)))
      match RandomString 32 src2 with
      | .panicked msg => .panicked msg
      | .returned (cnonce, src3) =>
        .returned ({ Realm := realm, Qop := "auth", Method := "", Nonce := nonce, Opaque := opq,
                     Algorithm := "", HA1 := ha1, Cnonce := cnonce, Path := "", Nc := 0,
                     Username := username, Password := password }, src3)

/-- Sequential `Apply` calls of one session on a list of requests, in order:
the session after the last call and the requests as sent. -/
def applySeq (d : DigestAuth) : List http.Request → DigestAuth × List http.Request
  | [] => (d, [])
  | r :: rs =>
    let p := d.Apply r
    let q := applySeq p.1 rs
    (q.1, p.2 :: q.2)

/-- BasicAuth consists of required information for HTTP Basic Auth. -/
structure BasicAuth where
  Username : String
  Password : String
deriving DecidableEq, Repr

/-- NewBasicAuth creates a new BasicAuth object. -/
def NewBasicAuth (username password : String) : BasicAuth :=
  { Username := username, Password := password }

namespace base64

/-- The standard base64 alphabet. -/
def encodeStd : String := "ABCDEFGHIJKLMNOPQRSTUVWXYZabcdefghijklmnopqrstuvwxyz0123456789+/"

/-- The base64 character of a 6-bit value. -/
def enc (i : Nat) : Char := encodeStd.toList.getD i '='

/-- Go `base64.StdEncoding.EncodeToString`. -/
def EncodeToString : List Nat → List Char
  | a :: b :: c :: rest =>
    enc (a / 4) :: enc (a % 4 * 16 + b / 16) :: enc (b % 16 * 4 + c / 64) :: enc (c % 64)
      :: EncodeToString rest
  | [a, b] => [enc (a / 4), enc (a % 4 * 16 + b / 16), enc (b % 16 * 4), '=']
  | [a] => [enc (a / 4), enc (a % 4 * 16), '=', '=']
  | [] => []

end base64

/-- Go `(*http.Request).SetBasicAuth`. -/
def http.Request.SetBasicAuth (req : http.Request) (username password : String) : http.Request :=
  let auth := String.mk (base64.EncodeToString (bytes (username ++ ":" ++ password)))
  { req with Header := req.Header.Set "Authorization" ("Basic " ++ auth) }

/-- Apply adds the Basic Authorization header to a HTTP request. -/
def BasicAuth.Apply (ba : BasicAuth) (req : http.Request) : BasicAuth × http.Request :=
  (ba, req.SetBasicAuth ba.Username ba.Password)

/-- IAuth defines an interface for HTTP Authentication; its two implementations. -/
inductive IAuth where
  | basic (ba : BasicAuth)
  | digest (d : DigestAuth)

/-- Dynamic dispatch of `Apply` on an `IAuth` value. -/
def IAuth.Apply : IAuth → http.Request → IAuth × http.Request
  | .basic ba, req => let p := ba.Apply req; (.basic p.1, p.2)
  | .digest d, req => let p := d.Apply req; (.digest p.1, p.2)

/-! ## hclient.go -/

/-- Go `http.validMethod`: a non-empty string of token characters. -/
def http.validMethod (method : String) : Bool :=
  decide (method.length > 0) && method.toList.all isTokenChar

/-- Go `%q` on a string of printable characters other than the quote and the
backslash (any other character would be escaped): the string between quotes. -/
def quoted (s : String) : String := "\"" ++ s ++ "\""

/-- Go `http.NewRequest`; `parse` stands for `url.Parse`. On failure no request
is produced (the Go result is `nil, err`). -/
def http.NewRequest (parse : String → Except String url.URL) (method urlStr : String)
    (body : Option String) : Except String http.Request :=
  let method := if method = "" then "GET" else method
  if !http.validMethod method then .error ("net/http: invalid method " ++ quoted method)
  else
    match parse urlStr with
    | .error err => .error err
    | .ok u => .ok { Method := method, URL := u, Header := http.Header.empty, Body := body }

/-- What the package takes from its environment: `url.Parse` and the round trip
of the embedded `http.Client`. -/
structure Env where
  parse : String → Except String url.URL
  send : http.Request → Except String http.Response

/-- Client structure: the embedded `http.Client` is the `send` of the
environment. -/
structure Client where
  Auth : Option IAuth

/-- SetRequest is the type of middleware functions updating requests. -/
abbrev SetRequest := http.Request → http.Request

/-- Do sends an HTTP request and returns an HTTP response: the configured
authentication is applied first. -/
def Client.Do (env : Env) (c : Client) (req : http.Request) :
    Client × Except String http.Response :=
  match c.Auth with
  | some a => let p := a.Apply req; ({ c with Auth := some p.1 }, env.send p.2)
  | none => (c, env.send req)

/-- Get issues a GET to the specified URL. -/
def Client.Get (env : Env) (c : Client) (url : String) : Client × Except String http.Response :=
  match http.NewRequest env.parse "GET" url none with
  | .error err => (c, .error err)
  | .ok req => c.Do env req

/-- Post issues a POST to the specified URL. -/
def Client.Post (env : Env) (c : Client) (url contentType : String) (body : Option String) :
    Client × Except String http.Response :=
  match http.NewRequest env.parse "POST" url body with
  | .error err => (c, .error err)
  | .ok req => c.Do env { req with Header := req.Header.Set "Content-Type" contentType }

/-- DoJSON sends the request and gets the response in JSON format, and returns
the status code on success. `reqBody` is the JSON text of the request value
when one is given; `respBody` is the decoder of the response value when one is
given (its result is the decoding error). The error of `http.NewRequest` is
overwritten unread, and the request it returned is dereferenced at once. -/
def Client.DoJSON (env : Env) (c : Client) (method api : String) (reqBody : Option String)
    (respBody : Option (String → Option String)) (middlewares : List SetRequest) :
    Outcome (Client × Int × Option String) :=
  match http.NewRequest env.parse method api reqBody with
  | .error _ => .panicked "invalid memory address or nil pointer dereference"
  | .ok req =>
    let hdr := req.Header.Set "Content-Type" "application/json; charset=utf-8"
    let req := { req with Header := hdr }
    let req := middlewares.foldl (fun r m => m r) req
    match c.Do env req with
    | (c1, .error err) => .returned (c1, 0, some err)
    | (c1, .ok resp) =>
      match respBody with
      | some decode =>
        match decode resp.Body with
        | some err => .returned (c1, resp.StatusCode, some ("Invalid response body: " ++ err))
        | none => .returned (c1, resp.StatusCode, none)
      | none => .returned (c1, resp.StatusCode, none)

/-! ## Specification-side definitions -/

/-- The `Hash` of the specification: MD5 rendered as lowercase hex. -/
def Hash (s : String) : String := Sprintfx (md5.Sum (bytes s))

/-- The `hex8` of the specification: exactly 8 lowercase hexadecimal digits,
zero-padded, most significant first. -/
def hex8 (n : Nat) : String :=
  String.mk ([7, 6, 5, 4, 3, 2, 1, 0].map fun i => Nat.digitChar (n / 16 ^ i % 16))

/-- The wire format of the specification: the Digest credential with its nine
fields in order, `nc` and `qop` unquoted and all others quoted. -/
def wireFormat (u r n uri c nc qop resp op : String) : String :=
  "Digest username=\"" ++ u ++ "\", realm=\"" ++ r ++ "\", nonce=\"" ++ n ++ "\", uri=\""
    ++ uri ++ "\", cnonce=\"" ++ c ++ "\", nc=" ++ nc ++ ", qop=" ++ qop ++ ", response=\""
    ++ resp ++ "\", opaque=\"" ++ op ++ "\""

/-- The response digest of the specification, steps 2 and 3 of the algorithm:
`Hash(HA1:nonce:nc:cnonce:qop:HA2)` with `HA2 = Hash(method:requestURI)`. -/
def specResponse (ha1 nonce nc cnonce qop method uri : String) : String :=
  Hash (ha1 ++ ":" ++ nonce ++ ":" ++ nc ++ ":" ++ cnonce ++ ":" ++ qop ++ ":"
    ++ Hash (method ++ ":" ++ uri))

/-- The number of byte values `b` that `RandomString` maps to the character
`c`, that is, with `DICT[b % SIZE] = c`. -/
def preimageCount (c : Char) : Nat :=
  ((List.range 256).filter fun b => DICT.toList[b % SIZE]? = some c).length

/-- The rendering of `u` on `k` hexadecimal places, most significant first, by
the digit table of `fmt`. -/
def fixedHex : Nat → Nat → List Char
  | 0, _ => []
  | k + 1, u => fixedHex k (u / 16) ++ [hexDigit (u % 16)]

/-- A text of exactly 8 lowercase hexadecimal digits. -/
def isHex8 (s : String) : Prop :=
  s.length = 8 ∧ ∀ c ∈ s.toList, c ∈ "0123456789abcdef".toList

/-- The value a text denotes when read as a hexadecimal numeral; a character
that is not a digit counts as 0. -/
def parseHex (s : String) : Nat :=
  s.toList.foldl (fun acc c => acc * 16 + ("0123456789abcdef".toList.indexOf c) % 16) 0

/-- The session that `NewDigestAuth` builds from the three tokens it draws. -/
def freshSession (realm username password nonce opq cnonce : String) : DigestAuth :=
  { Realm := realm, Qop := "auth", Method := "", Nonce := nonce, Opaque := opq,
    Algorithm := "", HA1 := Hash (username ++ ":" ++ realm ++ ":" ++ password),
    Cnonce := cnonce, Path := "", Nc := 0, Username := username, Password := password }

/-! ## Concrete inputs -/

/-- An entropy source delivering the 96 bytes 0, 1, ..., 95. -/
def exampleSource : rand.Source := List.range 96

/-- The session `NewDigestAuth("test", "alice", "secret")` builds from
`exampleSource`. -/
def exampleSession : DigestAuth :=
  freshSession "test" "alice" "secret" "1234567890abcdefghijklmnopqrstuv"
    "wxyzABCDEFGHIJKLMNOPQRSTUVWXYZ12" "34567890abcdefghijklmnopqrstuvwx"

/-- A GET request for `path` with no header. -/
def exampleRequest (path : String) : http.Request :=
  { Method := "GET",
    URL := { Scheme := "http", Opaque := "", Host := "localhost", EscapedPath := path,
             ForceQuery := false, RawQuery := "" },
    Header := http.Header.empty, Body := none }

/-- An environment whose `url.Parse` accepts every string as a path and whose
round trip answers 200 with an empty body. -/
def exampleEnv : Env :=
  { parse := fun s => .ok { Scheme := "http", Opaque := "", Host := "localhost",
                            EscapedPath := s, ForceQuery := false, RawQuery := "" },
    send := fun _ => .ok { StatusCode := 200, Body := "" } }

/-! ## Lemmas on `Apply` -/

theorem canonical_Authorization :
    textproto.CanonicalMIMEHeaderKey "Authorization" = "Authorization" := by
  decide

theorem Apply_Nc (d : DigestAuth) (req : http.Request) :
    (d.Apply req).1.Nc = wrapInt16 (d.Nc + 1) := rfl

theorem Apply_session (d : DigestAuth) (req : http.Request) :
    (d.Apply req).1 = { d with Nc := wrapInt16 (d.Nc + 1) } := rfl

theorem Apply_header (d : DigestAuth) (req : http.Request) :
    (d.Apply req).2.Header "Authorization"
      = some [wireFormat d.Username d.Realm d.Nonce req.URL.RequestURI d.Cnonce
          (Sprintf08x (wrapInt16 (d.Nc + 1))) d.Qop
          (specResponse d.HA1 d.Nonce (Sprintf08x (wrapInt16 (d.Nc + 1))) d.Cnonce d.Qop
            req.Method req.URL.RequestURI) d.Opaque] := by
  simp [DigestAuth.Apply, http.Header.Set, canonical_Authorization, wireFormat, specResponse,
    Hash]

theorem Apply_other_headers (d : DigestAuth) (req : http.Request) (k : String)
    (hk : k ≠ "Authorization") : (d.Apply req).2.Header k = req.Header k := by
  simp [DigestAuth.Apply, http.Header.Set, canonical_Authorization, hk]

theorem wrapInt16_range (x : Int) : -32768 ≤ wrapInt16 x ∧ wrapInt16 x ≤ 32767 := by
  unfold wrapInt16
  omega

theorem wrapInt16_of_range (x : Int) (h1 : -32768 ≤ x) (h2 : x ≤ 32767) : wrapInt16 x = x := by
  unfold wrapInt16
  omega

theorem wrapInt16_add (a b : Int) : wrapInt16 (wrapInt16 a + b) = wrapInt16 (a + b) := by
  unfold wrapInt16
  omega

theorem applySeq_session (d : DigestAuth) (reqs : List http.Request) :
    (applySeq d reqs).1 = { d with Nc := (applySeq d reqs).1.Nc } := by
  induction reqs generalizing d with
  | nil => rfl
  | cons r rs ih =>
    have h := ih (d.Apply r).1
    simp only [applySeq]
    rw [h, Apply_session]

theorem applySeq_Nc (d : DigestAuth) (reqs : List http.Request)
    (h : wrapInt16 d.Nc = d.Nc) :
    (applySeq d reqs).1.Nc = wrapInt16 (d.Nc + reqs.length) := by
  induction reqs generalizing d with
  | nil => simpa [applySeq] using h.symm
  | cons r rs ih =>
    have hr : wrapInt16 (d.Apply r).1.Nc = (d.Apply r).1.Nc := by
      rw [Apply_Nc]
      have := wrapInt16_range (d.Nc + 1)
      exact wrapInt16_of_range _ this.1 this.2
    have h2 := ih (d.Apply r).1 hr
    simp only [applySeq]
    rw [h2, Apply_Nc, wrapInt16_add]
    congr 1
    simp only [List.length_cons]
    push_cast
    ring

theorem applySeq_length (d : DigestAuth) (reqs : List http.Request) :
    (applySeq d reqs).2.length = reqs.length := by
  induction reqs generalizing d with
  | nil => rfl
  | cons r rs ih => simp [applySeq, ih]

/-! ## Lemmas on `%08x` -/

theorem hexDigit_eq_digitChar (k : Nat) (h : k < 16) : hexDigit k = Nat.digitChar k := by
  interval_cases k <;> rfl

theorem fmtDigits_buf (fuel u : Nat) (buf : List Char) :
    fmtDigits fuel u buf = fmtDigits fuel u [] ++ buf := by
  induction fuel generalizing u buf with
  | zero => simp [fmtDigits]
  | succ f ih =>
    unfold fmtDigits
    split
    · rw [ih (u / 16) (hexDigit (u % 16) :: buf), ih (u / 16) [hexDigit (u % 16)]]
      simp
    · simp

theorem fixedHex_zero (k : Nat) : fixedHex k 0 = List.replicate k '0' := by
  induction k with
  | zero => rfl
  | succ k ih =>
    simp only [fixedHex, Nat.zero_div, Nat.zero_mod, ih]
    rw [List.replicate_succ']
    rfl

theorem fixedHex_length (k u : Nat) : (fixedHex k u).length = k := by
  induction k generalizing u with
  | zero => rfl
  | succ k ih => simp [fixedHex, ih]

theorem pad_fmtDigits (k : Nat) : ∀ (fuel u : Nat), u < 16 ^ (k + 1) → k ≤ fuel →
    List.replicate (k + 1 - (fmtDigits fuel u []).length) '0' ++ fmtDigits fuel u []
      = fixedHex (k + 1) u := by
  induction k with
  | zero =>
    intro fuel u hu _
    have hu16 : u < 16 := by simpa using hu
    have hd : fmtDigits fuel u [] = [hexDigit u] := by
      cases fuel with
      | zero => rfl
      | succ f => simp [fmtDigits, Nat.not_le.mpr hu16]
    simp [hd, fixedHex, Nat.mod_eq_of_lt hu16]
  | succ k ih =>
    intro fuel u hu hfuel
    obtain ⟨f, rfl⟩ : ∃ f, fuel = f + 1 := ⟨fuel - 1, by omega⟩
    by_cases h16 : 16 ≤ u
    · have hq : u / 16 < 16 ^ (k + 1) := by
        rw [Nat.div_lt_iff_lt_mul (by norm_num)]
        rw [pow_succ] at hu
        exact hu
      have hrec := ih f (u / 16) hq (by omega)
      have hd : fmtDigits (f + 1) u [] = fmtDigits f (u / 16) [] ++ [hexDigit (u % 16)] := by
        rw [fmtDigits, if_pos h16, fmtDigits_buf]
      rw [hd, show fixedHex (k + 1 + 1) u = fixedHex (k + 1) (u / 16) ++ [hexDigit (u % 16)] from rfl,
        ← hrec]
      simp only [List.length_append, List.length_singleton, List.append_assoc]
      rw [show k + 1 + 1 - ((fmtDigits f (u / 16) []).length + 1)
        = k + 1 - (fmtDigits f (u / 16) []).length by omega]
    · have hu16 : u < 16 := Nat.not_le.mp h16
      have hd : fmtDigits (f + 1) u [] = [hexDigit u] := by
        simp [fmtDigits, h16]
      rw [hd, show fixedHex (k + 1 + 1) u = fixedHex (k + 1) (u / 16) ++ [hexDigit (u % 16)] from rfl,
        Nat.div_eq_of_lt hu16, Nat.mod_eq_of_lt hu16, fixedHex_zero]
      simp

theorem fixedHex_eight (n : Nat) : String.mk (fixedHex 8 n) = hex8 n := by
  have h : ∀ m : Nat, hexDigit (m % 16) = Nat.digitChar (m % 16) :=
    fun m => hexDigit_eq_digitChar _ (Nat.mod_lt _ (by norm_num))
  simp [fixedHex, hex8, h, Nat.div_div_eq_div_mul]

theorem Sprintf08x_nonneg (v : Int) (h0 : 0 ≤ v) (h1 : v < 16 ^ 8) :
    Sprintf08x v = hex8 v.toNat := by
  have hn : v.natAbs = v.toNat := by omega
  have hlt : v.toNat < 16 ^ (7 + 1) := by omega
  have hp := pad_fmtDigits 7 16 v.toNat hlt (by norm_num)
  have hneg : ¬ v < 0 := by omega
  simp only [Sprintf08x, hneg, decide_False, hn]
  rw [← fixedHex_eight]
  exact congrArg String.mk (by simpa using hp)

theorem hex8_length (n : Nat) : (hex8 n).length = 8 := by
  simp [hex8]

theorem digitChar_lowerHex (k : Nat) (h : k < 16) :
    Nat.digitChar k ∈ "0123456789abcdef".toList := by
  interval_cases k <;> decide

theorem hex8_chars (n : Nat) : ∀ c ∈ (hex8 n).toList, c ∈ "0123456789abcdef".toList := by
  intro c hc
  have hl : (hex8 n).toList
      = [7, 6, 5, 4, 3, 2, 1, 0].map fun i => Nat.digitChar (n / 16 ^ i % 16) := rfl
  rw [hl, List.mem_map] at hc
  obtain ⟨i, _, rfl⟩ := hc
  exact digitChar_lowerHex _ (Nat.mod_lt _ (by norm_num))

theorem hex8_isHex8 (n : Nat) : isHex8 (hex8 n) := ⟨hex8_length n, hex8_chars n⟩

theorem indexOf_digitChar (k : Nat) (h : k < 16) :
    "0123456789abcdef".toList.indexOf (Nat.digitChar k) = k := by
  interval_cases k <;> decide

theorem parseHex_hex8 (n : Nat) (h : n < 16 ^ 8) : parseHex (hex8 n) = n := by
  have hi : ∀ m : Nat, "0123456789abcdef".toList.indexOf (Nat.digitChar (m % 16)) = m % 16 :=
    fun m => indexOf_digitChar _ (Nat.mod_lt _ (by norm_num))
  have hl : (hex8 n).toList
      = [7, 6, 5, 4, 3, 2, 1, 0].map fun i => Nat.digitChar (n / 16 ^ i % 16) := rfl
  simp only [parseHex, hl, List.map_cons, List.map_nil, List.foldl_cons, List.foldl_nil, hi]
  norm_num at h ⊢
  omega

theorem minus_not_isHex8 : ¬ isHex8 "-0008000" := by
  intro h
  have := h.2 '-' (by decide)
  revert this
  decide

/-! ## Lemmas on `RandomString` and `NewDigestAuth` -/

theorem DICT_length : DICT.toList.length = 62 := by decide

theorem dictAt_mod (b : Nat) :
    ∃ c, dictAt (b % SIZE) = .returned c ∧ c ∈ DICT.toList := by
  have hlt : b % SIZE < DICT.toList.length := by
    rw [DICT_length]
    exact Nat.mod_lt _ (by decide)
  refine ⟨DICT.toList[b % SIZE], ?_, List.getElem_mem _⟩
  unfold dictAt
  rw [List.getElem?_eq_getElem hlt]

theorem mapDict_returned (bs : List Nat) :
    ∃ cs, mapDict bs = .returned cs ∧ cs.length = bs.length ∧ ∀ c ∈ cs, c ∈ DICT.toList := by
  induction bs with
  | nil => exact ⟨[], rfl, rfl, by simp⟩
  | cons b bs ih =>
    obtain ⟨c, hc, hmem⟩ := dictAt_mod b
    obtain ⟨cs, hcs, hlen, hall⟩ := ih
    refine ⟨c :: cs, ?_, by simp [hlen], ?_⟩
    · simp [mapDict, hc, hcs]
    · intro x hx
      rcases List.mem_cons.mp hx with rfl | hx
      · exact hmem
      · exact hall x hx

theorem RandomString_returned (n : Nat) (src : rand.Source) (h : n ≤ src.length) :
    ∃ s, RandomString n src = .returned (s, src.drop n) ∧ s.length = n
      ∧ ∀ c ∈ s.toList, c ∈ DICT.toList := by
  obtain ⟨cs, hcs, hlen, hall⟩ := mapDict_returned ((src.take n).map (· % 256))
  refine ⟨String.mk cs, ?_, ?_, hall⟩
  · simp only [RandomString, rand.Read, if_pos h, hcs]
  · simpa [String.length, h] using hlen

theorem RandomString_panicked (n : Nat) (src : rand.Source) (h : src.length < n) :
    RandomString n src = .panicked "crypto/rand: read failed" := by
  simp [RandomString, rand.Read, Nat.not_le.mpr h]

theorem NewDigestAuth_returned (realm username password : String) (src : rand.Source)
    (h : 96 ≤ src.length) :
    ∃ nonce opq cnonce,
      NewDigestAuth realm username password src
        = .returned (freshSession realm username password nonce opq cnonce, src.drop 96)
      ∧ (nonce.length = 32 ∧ ∀ c ∈ nonce.toList, c ∈ DICT.toList)
      ∧ (opq.length = 32 ∧ ∀ c ∈ opq.toList, c ∈ DICT.toList)
      ∧ (cnonce.length = 32 ∧ ∀ c ∈ cnonce.toList, c ∈ DICT.toList) := by
  obtain ⟨s1, h1, l1, a1⟩ := RandomString_returned 32 src (by omega)
  obtain ⟨s2, h2, l2, a2⟩ := RandomString_returned 32 (src.drop 32) (by simp; omega)
  have e2 : (src.drop 32).drop 32 = src.drop 64 := by simp
  rw [e2] at h2
  obtain ⟨s3, h3, l3, a3⟩ := RandomString_returned 32 (src.drop 64) (by simp; omega)
  have e3 : (src.drop 64).drop 32 = src.drop 96 := by simp
  rw [e3] at h3
  refine ⟨s1, s2, s3, ?_, ⟨l1, a1⟩, ⟨l2, a2⟩, ⟨l3, a3⟩⟩
  simp only [NewDigestAuth, h1, h2, h3, freshSession, Hash]

theorem NewDigestAuth_panicked (realm username password : String) (src : rand.Source)
    (h : src.length < 96) :
    NewDigestAuth realm username password src = .panicked "crypto/rand: read failed" := by
  by_cases h1 : src.length < 32
  · simp only [NewDigestAuth, RandomString_panicked 32 src h1]
  · obtain ⟨s1, e1, _, _⟩ := RandomString_returned 32 src (by omega)
    by_cases h2 : (src.drop 32).length < 32
    · simp only [NewDigestAuth, e1, RandomString_panicked 32 _ h2]
    · obtain ⟨s2, e2, _, _⟩ := RandomString_returned 32 (src.drop 32) (by omega)
      have h3 : ((src.drop 32).drop 32).length < 32 := by
        simp only [List.length_drop]
        omega
      simp only [NewDigestAuth, e1, e2, RandomString_panicked 32 _ h3]

theorem NewDigestAuth_fields (realm username password : String) (src src1 : rand.Source)
    (d : DigestAuth) (h : NewDigestAuth realm username password src = .returned (d, src1)) :
    d.Realm = realm ∧ d.Username = username ∧ d.Password = password ∧ d.Qop = "auth"
      ∧ d.HA1 = Hash (username ++ ":" ++ realm ++ ":" ++ password) ∧ d.Nc = 0 := by
  by_cases hs : src.length < 96
  · rw [NewDigestAuth_panicked _ _ _ _ hs] at h
    cases h
  · obtain ⟨n, o, c, e, _⟩ := NewDigestAuth_returned realm username password src (by omega)
    rw [e] at h
    injection h with h
    injection h with hd _
    subst hd
    exact ⟨rfl, rfl, rfl, rfl, rfl, rfl⟩

/-! ## Concrete evaluation -/

theorem exampleSession_fresh :
    NewDigestAuth "test" "alice" "secret" exampleSource = .returned (exampleSession, []) := by
  rfl

theorem md5_test_vector : Hash "abc" = "900150983cd24fb0d6963f7d28e17f72" := by
  decide

set_option maxRecDepth 1000000 in
theorem example_scenario :
    (applySeq exampleSession [exampleRequest "/a", exampleRequest "/b", exampleRequest "/a"]).2.map
        (fun r => r.Header "Authorization")
      = [some ["Digest username=\"alice\", realm=\"test\", nonce=\"1234567890abcdefghijklmnopqrstuv\", uri=\"/a\", cnonce=\"34567890abcdefghijklmnopqrstuvwx\", nc=00000001, qop=auth, response=\"ee71bd347f9f4f7e7a8fc25e4dd24597\", opaque=\"wxyzABCDEFGHIJKLMNOPQRSTUVWXYZ12\""],
         some ["Digest username=\"alice\", realm=\"test\", nonce=\"1234567890abcdefghijklmnopqrstuv\", uri=\"/b\", cnonce=\"34567890abcdefghijklmnopqrstuvwx\", nc=00000002, qop=auth, response=\"2d55cb4f9b71319dcc34de457b855749\", opaque=\"wxyzABCDEFGHIJKLMNOPQRSTUVWXYZ12\""],
         some ["Digest username=\"alice\", realm=\"test\", nonce=\"1234567890abcdefghijklmnopqrstuv\", uri=\"/a\", cnonce=\"34567890abcdefghijklmnopqrstuvwx\", nc=00000003, qop=auth, response=\"a6e003c4be169dd59631ce16708f78dd\", opaque=\"wxyzABCDEFGHIJKLMNOPQRSTUVWXYZ12\""]] := by
  decide

/-! ## Sessions built by `NewDigestAuth` -/

theorem fresh_nth_call (realm username password : String) (src src1 : rand.Source)
    (d : DigestAuth) (h : NewDigestAuth realm username password src = .returned (d, src1))
    (reqs : List http.Request) (req : http.Request) :
    ((applySeq d reqs).1.Apply req).1.Nc = wrapInt16 ((reqs.length : Int) + 1)
    ∧ ((applySeq d reqs).1.Apply req).2.Header "Authorization"
      = some [wireFormat username realm d.Nonce req.URL.RequestURI d.Cnonce
          (Sprintf08x (wrapInt16 ((reqs.length : Int) + 1))) "auth"
          (specResponse (Hash (username ++ ":" ++ realm ++ ":" ++ password)) d.Nonce
            (Sprintf08x (wrapInt16 ((reqs.length : Int) + 1))) d.Cnonce "auth"
            req.Method req.URL.RequestURI) d.Opaque] := by
  obtain ⟨hR, hU, _, hQ, hH, hN⟩ := NewDigestAuth_fields _ _ _ _ _ _ h
  have hs := applySeq_session d reqs
  have hnc : (applySeq d reqs).1.Nc = wrapInt16 (reqs.length : Int) := by
    rw [applySeq_Nc d reqs (by rw [hN]; rfl), hN, zero_add]
  have hw : wrapInt16 ((applySeq d reqs).1.Nc + 1) = wrapInt16 ((reqs.length : Int) + 1) := by
    rw [hnc, wrapInt16_add]
  have e1 : (applySeq d reqs).1.Username = username := (congrArg DigestAuth.Username hs).trans hU
  have e2 : (applySeq d reqs).1.Realm = realm := (congrArg DigestAuth.Realm hs).trans hR
  have e3 : (applySeq d reqs).1.Nonce = d.Nonce :=
    (congrArg DigestAuth.Nonce hs).trans rfl
  have e4 : (applySeq d reqs).1.Cnonce = d.Cnonce :=
    (congrArg DigestAuth.Cnonce hs).trans rfl
  have e5 : (applySeq d reqs).1.Qop = "auth" := (congrArg DigestAuth.Qop hs).trans hQ
  have e6 : (applySeq d reqs).1.HA1 = Hash (username ++ ":" ++ realm ++ ":" ++ password) :=
    (congrArg DigestAuth.HA1 hs).trans hH
  have e7 : (applySeq d reqs).1.Opaque = d.Opaque :=
    (congrArg DigestAuth.Opaque hs).trans rfl
  refine ⟨by rw [Apply_Nc, hw], ?_⟩
  rw [Apply_header, hw, e1, e2, e3, e4, e5, e6, e7]

/-! ## The claims -/

/-- C1 (the code breaks the claim): on a session freshly built by
`NewDigestAuth`, the first 32767 calls of `Apply` leave the count 32767, and
the 32768-th call leaves `Nc = -32768`: the count is not 32768, it did not
increase by 1, it decreased. -/
theorem nc_sequence_breaks_at_32768 (realm username password : String)
    (src src1 : rand.Source) (d : DigestAuth)
    (h : NewDigestAuth realm username password src = .returned (d, src1))
    (reqs : List http.Request) (req : http.Request) (hlen : reqs.length = 32767) :
    (applySeq d reqs).1.Nc = 32767
    ∧ ((applySeq d reqs).1.Apply req).1.Nc = -32768
    ∧ ((applySeq d reqs).1.Apply req).1.Nc ≠ (applySeq d reqs).1.Nc + 1
    ∧ ((applySeq d reqs).1.Apply req).1.Nc < (applySeq d reqs).1.Nc := by
  obtain ⟨_, _, _, _, _, hN⟩ := NewDigestAuth_fields _ _ _ _ _ _ h
  have hnc : (applySeq d reqs).1.Nc = 32767 := by
    rw [applySeq_Nc d reqs (by rw [hN]; rfl), hN, hlen]
    decide
  have hnext : ((applySeq d reqs).1.Apply req).1.Nc = -32768 := by
    rw [(fresh_nth_call _ _ _ _ _ _ h reqs req).1, hlen]
    decide
  rw [hnext, hnc]
  exact ⟨rfl, rfl, by decide, by decide⟩

theorem nc_sequence_breaks_at_32768_witness :
    (applySeq exampleSession (List.replicate 32767 (exampleRequest "/a"))).1.Nc = 32767
    ∧ ((applySeq exampleSession (List.replicate 32767 (exampleRequest "/a"))).1.Apply
        (exampleRequest "/a")).1.Nc = -32768
    ∧ ((applySeq exampleSession (List.replicate 32767 (exampleRequest "/a"))).1.Apply
        (exampleRequest "/a")).1.Nc
      ≠ (applySeq exampleSession (List.replicate 32767 (exampleRequest "/a"))).1.Nc + 1
    ∧ ((applySeq exampleSession (List.replicate 32767 (exampleRequest "/a"))).1.Apply
        (exampleRequest "/a")).1.Nc
      < (applySeq exampleSession (List.replicate 32767 (exampleRequest "/a"))).1.Nc :=
  nc_sequence_breaks_at_32768 "test" "alice" "secret" exampleSource [] exampleSession
    exampleSession_fresh (List.replicate 32767 (exampleRequest "/a")) (exampleRequest "/a")
    (List.length_replicate 32767 (exampleRequest "/a"))

/-- C2 (the code breaks the claim): on a session freshly built by
`NewDigestAuth`, the 32768-th call of `Apply` writes the header whose `nc`
field, the same text that is hashed into the response, is `-0008000`: the
counter has wrapped into the negative `int16` range and its text is not 8
hexadecimal digits. -/
theorem nc_text_not_hex8_at_32768 (realm username password : String)
    (src src1 : rand.Source) (d : DigestAuth)
    (h : NewDigestAuth realm username password src = .returned (d, src1))
    (reqs : List http.Request) (req : http.Request) (hlen : reqs.length = 32767) :
    ((applySeq d reqs).1.Apply req).2.Header "Authorization"
      = some [wireFormat username realm d.Nonce req.URL.RequestURI d.Cnonce "-0008000" "auth"
          (specResponse (Hash (username ++ ":" ++ realm ++ ":" ++ password)) d.Nonce
            "-0008000" d.Cnonce "auth" req.Method req.URL.RequestURI) d.Opaque]
    ∧ Sprintf08x ((applySeq d reqs).1.Apply req).1.Nc = "-0008000"
    ∧ ¬ isHex8 "-0008000" := by
  have hc := fresh_nth_call _ _ _ _ _ _ h reqs req
  have hw : wrapInt16 ((reqs.length : Int) + 1) = -32768 := by
    rw [hlen]
    decide
  have ht : Sprintf08x (-32768) = "-0008000" := by decide
  rw [hw, ht] at hc
  refine ⟨hc.2, ?_, minus_not_isHex8⟩
  rw [hc.1, ht]

theorem nc_text_not_hex8_at_32768_witness :
    ((applySeq exampleSession (List.replicate 32767 (exampleRequest "/a"))).1.Apply
        (exampleRequest "/b")).2.Header "Authorization"
      = some [wireFormat "alice" "test" exampleSession.Nonce (exampleRequest "/b").URL.RequestURI
          exampleSession.Cnonce "-0008000" "auth"
          (specResponse (Hash ("alice" ++ ":" ++ "test" ++ ":" ++ "secret")) exampleSession.Nonce
            "-0008000" exampleSession.Cnonce "auth" (exampleRequest "/b").Method
            (exampleRequest "/b").URL.RequestURI) exampleSession.Opaque]
    ∧ Sprintf08x ((applySeq exampleSession (List.replicate 32767 (exampleRequest "/a"))).1.Apply
        (exampleRequest "/b")).1.Nc = "-0008000"
    ∧ ¬ isHex8 "-0008000" :=
  nc_text_not_hex8_at_32768 "test" "alice" "secret" exampleSource [] exampleSession
    exampleSession_fresh (List.replicate 32767 (exampleRequest "/a")) (exampleRequest "/b")
    (List.length_replicate 32767 (exampleRequest "/a"))

/-- The response written by any call: after `NewDigestAuth` and any number of
earlier `Apply` calls, the header holds the hash over
`HA1:nonce:T:cnonce:auth:HA2` with `HA1 = Hash(username:realm:password)`,
`HA2 = Hash(m:u)` and `T` the `%08x` rendering of the counter after the
increment, which is `hex8` of the counter whenever the counter is not
negative. -/
theorem response_is_digest_of_request (realm username password : String)
    (src src1 : rand.Source) (d : DigestAuth)
    (h : NewDigestAuth realm username password src = .returned (d, src1))
    (reqs : List http.Request) (req : http.Request) :
    ((applySeq d reqs).1.Apply req).1.Nc = wrapInt16 ((applySeq d reqs).1.Nc + 1)
    ∧ ((applySeq d reqs).1.Apply req).2.Header "Authorization"
      = some [wireFormat username realm d.Nonce req.URL.RequestURI d.Cnonce
          (Sprintf08x ((applySeq d reqs).1.Apply req).1.Nc) "auth"
          (Hash (Hash (username ++ ":" ++ realm ++ ":" ++ password) ++ ":" ++ d.Nonce ++ ":"
            ++ Sprintf08x ((applySeq d reqs).1.Apply req).1.Nc ++ ":" ++ d.Cnonce ++ ":"
            ++ "auth" ++ ":" ++ Hash (req.Method ++ ":" ++ req.URL.RequestURI)))
          d.Opaque]
    ∧ (0 ≤ ((applySeq d reqs).1.Apply req).1.Nc →
        Sprintf08x ((applySeq d reqs).1.Apply req).1.Nc
          = hex8 ((applySeq d reqs).1.Apply req).1.Nc.toNat) := by
  have hc := fresh_nth_call _ _ _ _ _ _ h reqs req
  refine ⟨Apply_Nc _ _, ?_, ?_⟩
  · rw [hc.1]
    exact hc.2
  · intro h0
    have hr := wrapInt16_range ((applySeq d reqs).1.Nc + 1)
    rw [← Apply_Nc _ req] at hr
    exact Sprintf08x_nonneg _ h0 (by omega)

theorem wireFormat_nc_inj (u r n uri c t1 t2 q1 q2 r1 r2 o1 o2 : String)
    (h : wireFormat u r n uri c t1 q1 r1 o1 = wireFormat u r n uri c t2 q2 r2 o2)
    (hl : t1.length = t2.length) : t1 = t2 := by
  have hd := congrArg String.data h
  simp only [wireFormat, String.data_append, List.append_assoc, List.append_cancel_left_eq] at hd
  have := (List.append_inj hd hl).1
  exact String.ext this

theorem hex8_ne_signed (n : Nat) : hex8 n ≠ "-0008000" := fun h =>
  minus_not_isHex8 (h ▸ hex8_isHex8 n)

/-- C3 (the code breaks the claim): on a session freshly built by
`NewDigestAuth`, the 32768-th call of `Apply` leaves the counter at -32768 and
writes a `response` that is the hash over the counter text `-0008000`, which
is the `hex8` of no count: the response is not
`Hash(HA1:nonce:hex8(nc):cnonce:qop:HA2)`. -/
theorem response_hashes_signed_text_at_32768 (realm username password : String)
    (src src1 : rand.Source) (d : DigestAuth)
    (h : NewDigestAuth realm username password src = .returned (d, src1))
    (reqs : List http.Request) (req : http.Request) (hlen : reqs.length = 32767) :
    ((applySeq d reqs).1.Apply req).1.Nc = -32768
    ∧ ((applySeq d reqs).1.Apply req).2.Header "Authorization"
      = some [wireFormat username realm d.Nonce req.URL.RequestURI d.Cnonce "-0008000" "auth"
          (Hash (Hash (username ++ ":" ++ realm ++ ":" ++ password) ++ ":" ++ d.Nonce ++ ":"
            ++ "-0008000" ++ ":" ++ d.Cnonce ++ ":" ++ "auth" ++ ":"
            ++ Hash (req.Method ++ ":" ++ req.URL.RequestURI)))
          d.Opaque]
    ∧ (∀ n : Nat, hex8 n ≠ "-0008000") ∧ hex8 32768 = "00008000" := by
  have hc := fresh_nth_call _ _ _ _ _ _ h reqs req
  have hw : wrapInt16 ((reqs.length : Int) + 1) = -32768 := by
    rw [hlen]
    decide
  have ht : Sprintf08x (-32768) = "-0008000" := by decide
  rw [hw, ht] at hc
  exact ⟨hc.1, hc.2, hex8_ne_signed, by decide⟩

set_option maxRecDepth 1000000 in
theorem response_hashes_signed_text_at_32768_witness :
    ((applySeq exampleSession (List.replicate 32767 (exampleRequest "/a"))).1.Apply
        (exampleRequest "/a")).2.Header "Authorization"
      = some ["Digest username=\"alice\", realm=\"test\", nonce=\"1234567890abcdefghijklmnopqrstuv\", uri=\"/a\", cnonce=\"34567890abcdefghijklmnopqrstuvwx\", nc=-0008000, qop=auth, response=\"016cf8badc2f3a9f7feedff8c77d39d4\", opaque=\"wxyzABCDEFGHIJKLMNOPQRSTUVWXYZ12\""]
    ∧ Hash (Hash ("alice" ++ ":" ++ "test" ++ ":" ++ "secret") ++ ":" ++ exampleSession.Nonce ++ ":"
        ++ hex8 32768 ++ ":" ++ exampleSession.Cnonce ++ ":" ++ "auth" ++ ":"
        ++ Hash ("GET" ++ ":" ++ "/a")) = "35b362cbfc378768516723686bf41d21"
    ∧ "016cf8badc2f3a9f7feedff8c77d39d4" ≠ "35b362cbfc378768516723686bf41d21" :=
  ⟨(response_hashes_signed_text_at_32768 "test" "alice" "secret" exampleSource [] exampleSession
      exampleSession_fresh (List.replicate 32767 (exampleRequest "/a")) (exampleRequest "/a")
      (List.length_replicate 32767 (exampleRequest "/a"))).2.1.trans (by decide),
    by decide, by decide⟩

/-- The header written by any call: whatever the request carries under
`Authorization`, after `Apply` the header map holds exactly one value under
that key, the wire format in which `uri` is the request-URI hashed into HA2 and
`nc` is the `%08x` rendering of the counter after the increment, the text
hashed into the response. -/
theorem Apply_sets_single_authorization_header (d : DigestAuth) (req : http.Request) :
    (d.Apply req).2.Header "Authorization"
      = some [wireFormat d.Username d.Realm d.Nonce req.URL.RequestURI d.Cnonce
          (Sprintf08x (d.Apply req).1.Nc) d.Qop
          (Hash (d.HA1 ++ ":" ++ d.Nonce ++ ":" ++ Sprintf08x (d.Apply req).1.Nc ++ ":"
            ++ d.Cnonce ++ ":" ++ d.Qop ++ ":"
            ++ Hash (req.Method ++ ":" ++ req.URL.RequestURI)))
          d.Opaque]
    ∧ ((d.Apply req).2.Header.Values "Authorization").length = 1
    ∧ wireFormat "u" "r" "n" "/p?q=1" "c" "00000001" "auth" "resp" "op"
      = "Digest username=\"u\", realm=\"r\", nonce=\"n\", uri=\"/p?q=1\", cnonce=\"c\", nc=00000001, qop=auth, response=\"resp\", opaque=\"op\"" := by
  have hh := Apply_header d req
  refine ⟨hh, ?_, by decide⟩
  simp [http.Header.Values, canonical_Authorization, hh]

/-- C4 (the code breaks the claim): on a session freshly built by
`NewDigestAuth`, the 32768-th call of `Apply` leaves exactly one
`Authorization` value, and that value carries `nc=-0008000`: whatever text `t`
of 8 hexadecimal digits and whatever response are put into the wire format of
the specification, the header written is not that string. -/
theorem header_nc_not_8hex_at_32768 (realm username password : String)
    (src src1 : rand.Source) (d : DigestAuth)
    (h : NewDigestAuth realm username password src = .returned (d, src1))
    (reqs : List http.Request) (req : http.Request) (hlen : reqs.length = 32767) :
    ((applySeq d reqs).1.Apply req).2.Header.Values "Authorization"
      = [wireFormat username realm d.Nonce req.URL.RequestURI d.Cnonce "-0008000" "auth"
          (specResponse (Hash (username ++ ":" ++ realm ++ ":" ++ password)) d.Nonce
            "-0008000" d.Cnonce "auth" req.Method req.URL.RequestURI) d.Opaque]
    ∧ ∀ t qop resp op : String, isHex8 t →
        ((applySeq d reqs).1.Apply req).2.Header.Values "Authorization"
          ≠ [wireFormat username realm d.Nonce req.URL.RequestURI d.Cnonce t qop resp op] := by
  have hc := fresh_nth_call _ _ _ _ _ _ h reqs req
  have hw : wrapInt16 ((reqs.length : Int) + 1) = -32768 := by
    rw [hlen]
    decide
  have ht : Sprintf08x (-32768) = "-0008000" := by decide
  rw [hw, ht] at hc
  have hv : ((applySeq d reqs).1.Apply req).2.Header.Values "Authorization"
      = [wireFormat username realm d.Nonce req.URL.RequestURI d.Cnonce "-0008000" "auth"
          (specResponse (Hash (username ++ ":" ++ realm ++ ":" ++ password)) d.Nonce
            "-0008000" d.Cnonce "auth" req.Method req.URL.RequestURI) d.Opaque] := by
    simp only [http.Header.Values, canonical_Authorization, hc.2, Option.getD_some]
  refine ⟨hv, fun t qop resp op ht8 heq => ?_⟩
  rw [hv] at heq
  have hwf := List.head_eq_of_cons_eq heq
  have := wireFormat_nc_inj _ _ _ _ _ _ _ _ _ _ _ _ _ hwf (by rw [ht8.1]; decide)
  exact minus_not_isHex8 (this ▸ ht8)

set_option maxRecDepth 1000000 in
theorem header_nc_not_8hex_at_32768_witness :
    ((applySeq exampleSession (List.replicate 32767 (exampleRequest "/a"))).1.Apply
        (exampleRequest "/a")).2.Header.Values "Authorization"
      = ["Digest username=\"alice\", realm=\"test\", nonce=\"1234567890abcdefghijklmnopqrstuv\", uri=\"/a\", cnonce=\"34567890abcdefghijklmnopqrstuvwx\", nc=-0008000, qop=auth, response=\"016cf8badc2f3a9f7feedff8c77d39d4\", opaque=\"wxyzABCDEFGHIJKLMNOPQRSTUVWXYZ12\""]
    ∧ ∀ t qop resp op : String, isHex8 t →
        ((applySeq exampleSession (List.replicate 32767 (exampleRequest "/a"))).1.Apply
            (exampleRequest "/a")).2.Header.Values "Authorization"
          ≠ [wireFormat "alice" "test" exampleSession.Nonce (exampleRequest "/a").URL.RequestURI
              exampleSession.Cnonce t qop resp op] :=
  have hb := header_nc_not_8hex_at_32768 "test" "alice" "secret" exampleSource []
    exampleSession exampleSession_fresh (List.replicate 32767 (exampleRequest "/a"))
    (exampleRequest "/a") (List.length_replicate 32767 (exampleRequest "/a"))
  ⟨hb.1.trans (by decide), hb.2⟩

/-- C5: `Apply` changes nothing but the nonce count of the session and the
`Authorization` header of the request: every other field of the session, the
method, URL and body of the request and every other header are as before. -/
theorem Apply_frame (d : DigestAuth) (req : http.Request) :
    (d.Apply req).1.Realm = d.Realm ∧ (d.Apply req).1.Username = d.Username
    ∧ (d.Apply req).1.Password = d.Password ∧ (d.Apply req).1.Qop = d.Qop
    ∧ (d.Apply req).1.Algorithm = d.Algorithm ∧ (d.Apply req).1.Nonce = d.Nonce
    ∧ (d.Apply req).1.Opaque = d.Opaque ∧ (d.Apply req).1.Cnonce = d.Cnonce
    ∧ (d.Apply req).1.HA1 = d.HA1 ∧ (d.Apply req).1.Method = d.Method
    ∧ (d.Apply req).1.Path = d.Path
    ∧ (d.Apply req).2.Method = req.Method ∧ (d.Apply req).2.URL = req.URL
    ∧ (d.Apply req).2.Body = req.Body
    ∧ ∀ k, k ≠ "Authorization" → (d.Apply req).2.Header k = req.Header k :=
  ⟨rfl, rfl, rfl, rfl, rfl, rfl, rfl, rfl, rfl, rfl, rfl, rfl, rfl, rfl,
    fun k hk => Apply_other_headers d req k hk⟩

theorem Apply_frame_witness :
    ((exampleSession.Apply (exampleRequest "/a")).1.Realm = exampleSession.Realm
      ∧ (exampleSession.Apply (exampleRequest "/a")).1.HA1 = exampleSession.HA1
      ∧ (exampleSession.Apply (exampleRequest "/a")).2.URL = (exampleRequest "/a").URL)
    ∧ "Content-Type" ≠ "Authorization"
    ∧ (exampleSession.Apply (exampleRequest "/a")).2.Header "Content-Type"
        = (exampleRequest "/a").Header "Content-Type" :=
  have hf := Apply_frame exampleSession (exampleRequest "/a")
  ⟨⟨hf.1, hf.2.2.2.2.2.2.2.2.1, hf.2.2.2.2.2.2.2.2.2.2.2.2.1⟩, by decide,
    hf.2.2.2.2.2.2.2.2.2.2.2.2.2.2 "Content-Type" (by decide)⟩

/-- C6: for every length `n` and every entropy source that delivers `n` bytes,
`RandomString n` returns a string of exactly `n` characters, each one of the
62 distinct digits and letters of `DICT`; the lookup `DICT[b % SIZE]` is in
bounds for every `b`. -/
theorem RandomString_length_and_alphabet (n : Nat) (src : rand.Source) (h : n ≤ src.length) :
    (∃ s, RandomString n src = .returned (s, src.drop n) ∧ s.length = n
      ∧ ∀ c ∈ s.toList, c ∈ DICT.toList)
    ∧ DICT.toList.length = 62 ∧ DICT.toList.Nodup
    ∧ (∀ c ∈ DICT.toList, c.isDigit ∨ c.isLower ∨ c.isUpper)
    ∧ ∀ b : Nat, b % SIZE < DICT.toList.length ∧ ∃ c, dictAt (b % SIZE) = .returned c := by
  refine ⟨RandomString_returned n src h, DICT_length, by decide, by decide, fun b => ⟨?_, ?_⟩⟩
  · rw [DICT_length]
    exact Nat.mod_lt _ (by decide)
  · obtain ⟨c, hc, _⟩ := dictAt_mod b
    exact ⟨c, hc⟩

theorem RandomString_length_and_alphabet_witness :
    (∃ s, RandomString 32 exampleSource = .returned (s, exampleSource.drop 32) ∧ s.length = 32
      ∧ ∀ c ∈ s.toList, c ∈ DICT.toList)
    ∧ DICT.toList.length = 62 ∧ DICT.toList.Nodup
    ∧ (∀ c ∈ DICT.toList, c.isDigit ∨ c.isLower ∨ c.isUpper)
    ∧ ∀ b : Nat, b % SIZE < DICT.toList.length ∧ ∃ c, dictAt (b % SIZE) = .returned c :=
  RandomString_length_and_alphabet 32 exampleSource (by decide)

/-- C7 (as stated, false): the characters of `DICT` do not all have the same
number of byte values mapped to them. -/
theorem preimages_not_uniform :
    ¬ ∀ c1 ∈ DICT.toList, ∀ c2 ∈ DICT.toList, preimageCount c1 = preimageCount c2 := by
  intro h
  have h19 := h '1' (by decide) '9' (by decide)
  revert h19
  decide

/-- C7 (amended): under `b ↦ DICT[b % SIZE]` each of the first eight characters
of `DICT`, `1` to `8`, is the image of 5 of the 256 byte values and each of the
other 54 characters is the image of 4. -/
theorem preimageCount_five_or_four (c : Char) (hc : c ∈ DICT.toList) :
    preimageCount c = if c ∈ "12345678".toList then 5 else 4 := by
  revert c
  decide

theorem preimageCount_five_or_four_witness :
    'a' ∈ DICT.toList ∧ preimageCount 'a' = if 'a' ∈ "12345678".toList then 5 else 4 :=
  ⟨by decide, preimageCount_five_or_four 'a' (by decide)⟩

theorem wireFormat_prefix (u r n uri c nc qop resp op : String) :
    ∃ rest, wireFormat u r n uri c nc qop resp op
      = "Digest username=\"" ++ u ++ "\", realm=\"" ++ r ++ "\"" ++ rest := by
  refine ⟨", nonce=\"" ++ n ++ "\", uri=\"" ++ uri ++ "\", cnonce=\"" ++ c ++ "\", nc=" ++ nc
    ++ ", qop=" ++ qop ++ ", response=\"" ++ resp ++ "\", opaque=\"" ++ op ++ "\"", ?_⟩
  have hq : "\", nonce=\"" = "\"" ++ ", nonce=\"" := by decide
  simp only [wireFormat, hq, String.append_assoc]

/-- C8 (as stated, false): `NewDigestAuth("", "", "")` on a working entropy
source does not fail; it returns a session with empty realm, username and
password, and `Apply` on it writes a header with `username=""` and
`realm=""`. -/
theorem empty_credentials_accepted :
    ∃ d src1, NewDigestAuth "" "" "" exampleSource = .returned (d, src1)
      ∧ d.Realm = "" ∧ d.Username = "" ∧ d.Password = ""
      ∧ ∃ rest, (d.Apply (exampleRequest "/a")).2.Header "Authorization"
          = some ["Digest username=\"\", realm=\"\"" ++ rest] := by
  refine ⟨freshSession "" "" "" "1234567890abcdefghijklmnopqrstuv"
    "wxyzABCDEFGHIJKLMNOPQRSTUVWXYZ12" "34567890abcdefghijklmnopqrstuvwx", [], rfl, rfl, rfl,
    rfl, ?_⟩
  obtain ⟨rest, hr⟩ := wireFormat_prefix "" "" "1234567890abcdefghijklmnopqrstuv"
    (exampleRequest "/a").URL.RequestURI "34567890abcdefghijklmnopqrstuvwx"
    (Sprintf08x (wrapInt16 (0 + 1))) "auth"
    (specResponse (Hash ("" ++ ":" ++ "" ++ ":" ++ "")) "1234567890abcdefghijklmnopqrstuv"
      (Sprintf08x (wrapInt16 (0 + 1))) "34567890abcdefghijklmnopqrstuvwx" "auth"
      (exampleRequest "/a").Method (exampleRequest "/a").URL.RequestURI)
    "wxyzABCDEFGHIJKLMNOPQRSTUVWXYZ12"
  refine ⟨rest, ?_⟩
  rw [Apply_header]
  exact congrArg (fun s => some [s]) hr

/-- C8 (amended): `NewDigestAuth` validates nothing. For every realm, username
and password, empty or not, it returns a session whenever the entropy source
delivers its 96 bytes, and panics only when that read fails; the session holds
realm, username and password as given, `Qop = "auth"`, `Nc = 0` and
`HA1 = Hash(username:realm:password)`, and `Apply` on it writes username and
realm verbatim into the header. -/
theorem NewDigestAuth_accepts_any_credentials (realm username password : String)
    (src : rand.Source) :
    (96 ≤ src.length → ∃ d, NewDigestAuth realm username password src = .returned (d, src.drop 96)
      ∧ d.Realm = realm ∧ d.Username = username ∧ d.Password = password ∧ d.Qop = "auth"
      ∧ d.Nc = 0 ∧ d.HA1 = Hash (username ++ ":" ++ realm ++ ":" ++ password)
      ∧ d.Nonce.length = 32 ∧ d.Opaque.length = 32 ∧ d.Cnonce.length = 32
      ∧ ∀ req, ∃ rest, (d.Apply req).2.Header "Authorization"
          = some ["Digest username=\"" ++ username ++ "\", realm=\"" ++ realm ++ "\"" ++ rest])
    ∧ (src.length < 96 →
        NewDigestAuth realm username password src = .panicked "crypto/rand: read failed") := by
  refine ⟨fun h => ?_, NewDigestAuth_panicked realm username password src⟩
  obtain ⟨n, o, c, e, hn, ho, hc⟩ := NewDigestAuth_returned realm username password src h
  refine ⟨_, e, rfl, rfl, rfl, rfl, rfl, rfl, hn.1, ho.1, hc.1, fun req => ?_⟩
  obtain ⟨rest, hr⟩ := wireFormat_prefix username realm n req.URL.RequestURI c
    (Sprintf08x (wrapInt16 (0 + 1))) "auth"
    (specResponse (Hash (username ++ ":" ++ realm ++ ":" ++ password)) n
      (Sprintf08x (wrapInt16 (0 + 1))) c "auth" req.Method req.URL.RequestURI) o
  refine ⟨rest, ?_⟩
  rw [Apply_header]
  exact congrArg (fun s => some [s]) hr

theorem NewDigestAuth_accepts_any_credentials_witness :
    (96 ≤ exampleSource.length → ∃ d, NewDigestAuth "" "alice" "" exampleSource
        = .returned (d, exampleSource.drop 96)
      ∧ d.Realm = "" ∧ d.Username = "alice" ∧ d.Password = "" ∧ d.Qop = "auth"
      ∧ d.Nc = 0 ∧ d.HA1 = Hash ("alice" ++ ":" ++ "" ++ ":" ++ "")
      ∧ d.Nonce.length = 32 ∧ d.Opaque.length = 32 ∧ d.Cnonce.length = 32
      ∧ ∀ req, ∃ rest, (d.Apply req).2.Header "Authorization"
          = some ["Digest username=\"" ++ "alice" ++ "\", realm=\"" ++ "" ++ "\"" ++ rest])
    ∧ (exampleSource.length < 96 →
        NewDigestAuth "" "alice" "" exampleSource = .panicked "crypto/rand: read failed") :=
  NewDigestAuth_accepts_any_credentials "" "alice" "" exampleSource

/-- C9: with the counter stored as an `int16`, on a session freshly built by
`NewDigestAuth`: for `1 ≤ N ≤ 32767` the `N`-th `Apply` leaves `Nc = N` and
writes the `nc` field `hex8 N`, 8 zero-padded lowercase hex digits denoting
`N`; the 32768-th `Apply` leaves `Nc = -32768` and writes the `nc` field
`-0008000`, which holds a minus sign and is not 8 hex digits; after 65536
calls `Nc` is 0 again, and the 65537-th call leaves `Nc = 1` and writes the
`nc` field `00000001` of the first call. -/
theorem int16_counter_behaviour (realm username password : String)
    (src src1 : rand.Source) (d : DigestAuth)
    (h : NewDigestAuth realm username password src = .returned (d, src1)) :
    (∀ (reqs : List http.Request) (req : http.Request), reqs.length + 1 ≤ 32767 →
      ((applySeq d reqs).1.Apply req).1.Nc = ((reqs.length + 1 : Nat) : Int)
      ∧ ((applySeq d reqs).1.Apply req).2.Header "Authorization"
        = some [wireFormat username realm d.Nonce req.URL.RequestURI d.Cnonce
            (hex8 (reqs.length + 1)) "auth"
            (specResponse (Hash (username ++ ":" ++ realm ++ ":" ++ password)) d.Nonce
              (hex8 (reqs.length + 1)) d.Cnonce "auth" req.Method req.URL.RequestURI) d.Opaque]
      ∧ isHex8 (hex8 (reqs.length + 1)) ∧ parseHex (hex8 (reqs.length + 1)) = reqs.length + 1)
    ∧ (∀ (reqs : List http.Request) (req : http.Request), reqs.length + 1 = 32768 →
      ((applySeq d reqs).1.Apply req).1.Nc = -32768
      ∧ ((applySeq d reqs).1.Apply req).2.Header "Authorization"
        = some [wireFormat username realm d.Nonce req.URL.RequestURI d.Cnonce
            "-0008000" "auth"
            (specResponse (Hash (username ++ ":" ++ realm ++ ":" ++ password)) d.Nonce
              "-0008000" d.Cnonce "auth" req.Method req.URL.RequestURI) d.Opaque]
      ∧ '-' ∈ "-0008000".toList ∧ ¬ isHex8 "-0008000")
    ∧ (∀ (reqs : List http.Request), reqs.length = 65536 → (applySeq d reqs).1.Nc = 0)
    ∧ (∀ (reqs : List http.Request) (req : http.Request), reqs.length + 1 = 65537 →
      ((applySeq d reqs).1.Apply req).1.Nc = 1
      ∧ ((applySeq d reqs).1.Apply req).2.Header "Authorization"
        = some [wireFormat username realm d.Nonce req.URL.RequestURI d.Cnonce
            "00000001" "auth"
            (specResponse (Hash (username ++ ":" ++ realm ++ ":" ++ password)) d.Nonce
              "00000001" d.Cnonce "auth" req.Method req.URL.RequestURI) d.Opaque])
    ∧ hex8 1 = "00000001" := by
  obtain ⟨_, _, _, _, _, hN⟩ := NewDigestAuth_fields _ _ _ _ _ _ h
  refine ⟨?_, ?_, ?_, ?_, by decide⟩
  · intro reqs req hle
    have hc := fresh_nth_call _ _ _ _ _ _ h reqs req
    have hw : wrapInt16 ((reqs.length : Int) + 1) = ((reqs.length + 1 : Nat) : Int) := by
      rw [wrapInt16_of_range _ (by omega) (by omega)]
      push_cast
      rfl
    have ht : Sprintf08x (((reqs.length + 1 : Nat) : Int)) = hex8 (reqs.length + 1) := by
      rw [Sprintf08x_nonneg _ (by omega) (by omega)]
      rfl
    rw [hw, ht] at hc
    exact ⟨hc.1, hc.2, hex8_isHex8 _, parseHex_hex8 _ (by omega)⟩
  · intro reqs req hlen
    have hc := fresh_nth_call _ _ _ _ _ _ h reqs req
    have hl : (reqs.length : Int) = 32767 := by omega
    have hw : wrapInt16 ((reqs.length : Int) + 1) = -32768 := by
      rw [hl]
      decide
    have ht : Sprintf08x (-32768) = "-0008000" := by decide
    rw [hw, ht] at hc
    exact ⟨hc.1, hc.2, by decide, minus_not_isHex8⟩
  · intro reqs hlen
    rw [applySeq_Nc d reqs (by rw [hN]; rfl), hN, hlen]
    decide
  · intro reqs req hlen
    have hc := fresh_nth_call _ _ _ _ _ _ h reqs req
    have hl : (reqs.length : Int) = 65536 := by omega
    have hw : wrapInt16 ((reqs.length : Int) + 1) = 1 := by
      rw [hl]
      decide
    have ht : Sprintf08x 1 = "00000001" := by decide
    rw [hw, ht] at hc
    exact hc

theorem int16_counter_behaviour_witness :
    ((applySeq exampleSession [exampleRequest "/a", exampleRequest "/b"]).1.Apply
        (exampleRequest "/b")).1.Nc = 3
    ∧ ((applySeq exampleSession (List.replicate 32767 (exampleRequest "/a"))).1.Apply
        (exampleRequest "/b")).1.Nc = -32768
    ∧ (applySeq exampleSession (List.replicate 65536 (exampleRequest "/a"))).1.Nc = 0
    ∧ ((applySeq exampleSession (List.replicate 65536 (exampleRequest "/a"))).1.Apply
        (exampleRequest "/b")).1.Nc = 1 :=
  have hb := int16_counter_behaviour "test" "alice" "secret" exampleSource [] exampleSession
    exampleSession_fresh
  ⟨(hb.1 [exampleRequest "/a", exampleRequest "/b"] (exampleRequest "/b") (by decide)).1,
    (hb.2.1 (List.replicate 32767 (exampleRequest "/a")) (exampleRequest "/b")
      (by rw [List.length_replicate])).1,
    hb.2.2.1 (List.replicate 65536 (exampleRequest "/a")) (List.length_replicate _ _),
    (hb.2.2.2.1 (List.replicate 65536 (exampleRequest "/a")) (exampleRequest "/b")
      (by rw [List.length_replicate])).1⟩

/-! ## `DoJSON` and its siblings -/

theorem Get_returns_request_error (env : Env) (c : Client) (url err : String)
    (h : http.NewRequest env.parse "GET" url none = .error err) :
    c.Get env url = (c, .error err) := by
  simp only [Client.Get, h]

theorem Post_returns_request_error (env : Env) (c : Client) (url contentType err : String)
    (body : Option String) (h : http.NewRequest env.parse "POST" url body = .error err) :
    c.Post env url contentType body = (c, .error err) := by
  simp only [Client.Post, h]

/-- C10 (the code breaks the claim): whenever building the request fails, so
that `http.NewRequest` returns no request, `DoJSON` does not return status 0
with that error: it dereferences the missing request and panics. -/
theorem DoJSON_panics_without_request (env : Env) (c : Client) (method api err : String)
    (reqBody : Option String) (respBody : Option (String → Option String))
    (middlewares : List SetRequest)
    (h : http.NewRequest env.parse method api reqBody = .error err) :
    c.DoJSON env method api reqBody respBody middlewares
      = .panicked "invalid memory address or nil pointer dereference"
    ∧ c.DoJSON env method api reqBody respBody middlewares ≠ .returned (c, 0, some err) := by
  have hp : c.DoJSON env method api reqBody respBody middlewares
      = .panicked "invalid memory address or nil pointer dereference" := by
    simp only [Client.DoJSON, h]
  refine ⟨hp, ?_⟩
  rw [hp]
  intro hcontra
  cases hcontra

theorem DoJSON_panics_without_request_witness :
    http.NewRequest exampleEnv.parse "BAD METHOD" "/a" none
      = .error "net/http: invalid method \"BAD METHOD\""
    ∧ Client.DoJSON exampleEnv { Auth := none } "BAD METHOD" "/a" none none []
      = .panicked "invalid memory address or nil pointer dereference"
    ∧ Client.DoJSON exampleEnv { Auth := none } "BAD METHOD" "/a" none none []
      ≠ .returned ({ Auth := none }, 0, some "net/http: invalid method \"BAD METHOD\"") :=
  ⟨rfl, DoJSON_panics_without_request exampleEnv { Auth := none } "BAD METHOD" "/a"
    "net/http: invalid method \"BAD METHOD\"" none none [] rfl⟩

end hclient
